import Mathlib

/-!
A shallow embedding of the data-normalization and filtering core of
`src/zameen-copy.py` (the function `clean_data` with its inner helpers
`price_to_number`, `extract_bed`, `extract_bath`, and the filtering block of
`run_streamlit_app`), together with theorems settling the specification's
claims about it.

Strings are modelled as `List Char` internally; Python `float` values are
modelled as exact rationals (`ℚ`), which agrees with IEEE doubles on every
concrete value the claims mention (the special values `inf`/`nan` and digit
underscores accepted by Python's `float` are outside the model).  A Python
exception escaping a function is modelled as `Except.error ()`.
-/

namespace Zameen

/-- Python whitespace characters recognised by `str.strip()` (ASCII subset). -/
def pyWhite (c : Char) : Bool :=
  c == ' ' || c == '\t' || c == '\n' || c == '\r' || c == Char.ofNat 11 || c == Char.ofNat 12

/-- Python's `str.strip()`: drop leading and trailing whitespace. -/
def pyStrip (s : List Char) : List Char :=
  ((s.dropWhile pyWhite).reverse.dropWhile pyWhite).reverse

/-- Is `p` a prefix of `s`?  (Boolean, structural.) -/
def isPref : List Char → List Char → Bool
  | [], _ => true
  | _ :: _, [] => false
  | p :: ps, c :: cs => p == c && isPref ps cs

/-- Python's `pat in s` substring test. -/
def subStr (pat : List Char) : List Char → Bool
  | [] => pat.isEmpty
  | c :: cs => isPref pat (c :: cs) || subStr pat cs

/-- Worker for `removeAll`; the fuel argument makes the recursion structural
and is always at least the length of the string argument. -/
def removeAllAux (pat : List Char) : ℕ → List Char → List Char
  | _, [] => []
  | 0, s => s
  | fuel + 1, c :: cs =>
    if isPref pat (c :: cs) then
      match pat with
      | [] => c :: cs
      | _ :: ps => removeAllAux pat fuel (cs.drop ps.length)
    else c :: removeAllAux pat fuel cs

/-- Python's `s.replace(pat, "")`: remove every (leftmost, non-overlapping)
occurrence of the non-empty pattern `pat` from `s`. -/
def removeAll (pat s : List Char) : List Char :=
  removeAllAux pat s.length s

/-- The numeric value of a run of decimal digits. -/
def digitsToNat (ds : List Char) : ℕ :=
  ds.foldl (fun a c => 10 * a + (c.toNat - '0'.toNat)) 0

/-- The digit structure of a successfully parsed Python float literal:
mantissa sign, integer-part value, fraction-part value and digit count, and
exponent sign and value. -/
structure FloatRep where
  neg : Bool
  ip : ℕ
  fp : ℕ
  fpLen : ℕ
  eNeg : Bool
  exp : ℕ
deriving DecidableEq, Repr

/-- The rational value denoted by a parsed float literal. -/
def floatVal (r : FloatRep) : ℚ :=
  let m : ℚ := (if r.neg then -1 else 1) * ((r.ip : ℚ) + (r.fp : ℚ) / 10 ^ r.fpLen)
  if r.eNeg then m / 10 ^ r.exp else m * 10 ^ r.exp

/-- The exponent part of a Python float literal (after the `e`/`E`). -/
def floatExpParse (neg : Bool) (ip fp fpLen : ℕ) (s : List Char) : Option FloatRep :=
  let (eNeg, s1) : Bool × List Char :=
    match s with
    | '+' :: r => (false, r)
    | '-' :: r => (true, r)
    | _ => (false, s)
  let ed := s1.takeWhile Char.isDigit
  if ed.isEmpty || !(s1.dropWhile Char.isDigit).isEmpty then none
  else some ⟨neg, ip, fp, fpLen, eNeg, digitsToNat ed⟩

/-- The accepted strings of Python's `float(s)` on an already-stripped string:
optional sign, decimal digits with an optional point (at least one digit),
optional exponent.  Returns the digit structure. -/
def floatParse (s : List Char) : Option FloatRep :=
  let (neg, s1) : Bool × List Char :=
    match s with
    | '+' :: r => (false, r)
    | '-' :: r => (true, r)
    | _ => (false, s)
  let ip := s1.takeWhile Char.isDigit
  let rest1 := s1.dropWhile Char.isDigit
  let (fp, rest2) : List Char × List Char :=
    match rest1 with
    | '.' :: r => (r.takeWhile Char.isDigit, r.dropWhile Char.isDigit)
    | _ => ([], rest1)
  if ip.isEmpty && fp.isEmpty then none
  else
    match rest2 with
    | [] => some ⟨neg, digitsToNat ip, digitsToNat fp, fp.length, false, 0⟩
    | 'e' :: r => floatExpParse neg (digitsToNat ip) (digitsToNat fp) fp.length r
    | 'E' :: r => floatExpParse neg (digitsToNat ip) (digitsToNat fp) fp.length r
    | _ => none

/-- Python's `float(s)` over exact rationals. -/
def pyFloat (s : List Char) : Option ℚ :=
  (floatParse s).map floatVal

/-- One magnitude-suffix branch of `price_to_number`: remove the suffix token,
strip, parse as float and scale by the fixed multiplier; a parse failure here
is an uncaught `ValueError`. -/
def applySuffix (tok : List Char) (mult : ℚ) (t : List Char) : Except Unit (Option ℚ) :=
  match floatParse (pyStrip (removeAll tok t)) with
  | some r => .ok (some (floatVal r * mult))
  | none => .error ()

/-- The text of a price field after `"PKR"` removal and stripping
(src/zameen-copy.py line 60). -/
def stripPKR (s : String) : List Char :=
  pyStrip (removeAll "PKR".data s.data)

/-- The function `price_to_number` from `clean_data` (src/zameen-copy.py lines 57-69):
`None` on an absent price, else strip the `"PKR"` prefix, check `"Crore"`
then `"Lakh"` as substrings with fixed multipliers, else try a plain float
parse whose failure is caught and returned as `None`. -/
def price_to_number (price : Option String) : Except Unit (Option ℚ) :=
  match price with
  | none => .ok none
  | some s =>
    if subStr "Crore".data (stripPKR s) then applySuffix "Crore".data 10000000 (stripPKR s)
    else if subStr "Lakh".data (stripPKR s) then applySuffix "Lakh".data 100000 (stripPKR s)
    else .ok (pyFloat (stripPKR s))

/-- First-match search for the regex `(\d+)\s*<label>` (as in `re.search`):
scan left to right; at a digit, the captured group is the maximal digit run
from here, followed by optional whitespace and the literal label. -/
def scanMatch (label : List Char) : List Char → Option ℕ
  | [] => none
  | c :: cs =>
    if c.isDigit && isPref label (((c :: cs).dropWhile Char.isDigit).dropWhile pyWhite)
    then some (digitsToNat ((c :: cs).takeWhile Char.isDigit))
    else scanMatch label cs

/-- The common shape of `extract_bed` / `extract_bath`: `None` on absent text,
else the first `(\d+)\s*<label>` match. -/
def extractCount (text : Option String) (label : String) : Option ℕ :=
  match text with
  | none => none
  | some s => scanMatch label.data s.data

/-- The function `extract_bed` (src/zameen-copy.py lines 73-77). -/
def extract_bed (features : Option String) : Option ℕ :=
  extractCount features "Bed"

/-- The function `extract_bath` (src/zameen-copy.py lines 79-83). -/
def extract_bath (features : Option String) : Option ℕ :=
  extractCount features "Bath"

/-- A raw scraped record: all fields optional text. -/
structure RawListing where
  location : Option String
  price : Option String
  features : Option String
  lastUpdated : Option String
deriving DecidableEq, Repr

/-- A row of the cleaned dataframe (columns Location, Price, Price_numeric,
Bedrooms, Bathrooms). -/
structure NormalizedListing where
  location : Option String
  price : Option String
  price_numeric : ℚ
  bedrooms : ℤ
  bathrooms : ℤ
deriving DecidableEq, Repr

/-- Assemble the cleaned row for a raw record whose price parsed to `q`:
bedroom/bathroom counts from `Features`, with `fillna(0).astype(int)`. -/
def mkListing (r : RawListing) (q : ℚ) : NormalizedListing :=
  { location := r.location
    price := r.price
    price_numeric := q
    bedrooms := ((extract_bed r.features).getD 0 : ℕ)
    bathrooms := ((extract_bath r.features).getD 0 : ℕ) }

/-- The `Price_numeric` column computation: `price_to_number` applied to every
row in order; the first uncaught exception aborts the whole `clean_data` call. -/
def cleanRows : List RawListing → Except Unit (List (RawListing × Option ℚ))
  | [] => .ok []
  | r :: rest =>
    match price_to_number r.price with
    | .error e => .error e
    | .ok pn =>
      match cleanRows rest with
      | .error e => .error e
      | .ok tl => .ok ((r, pn) :: tl)

/-- The function `clean_data` (src/zameen-copy.py lines 53-100): compute `Price_numeric`
for every row, drop the rows where it is null (`dropna`), and keep the columns
Location, Price, Price_numeric, Bedrooms, Bathrooms. -/
def clean_data (l : List RawListing) : Except Unit (List NormalizedListing) :=
  (cleanRows l).map (fun rows => rows.filterMap (fun rq => rq.2.map (mkListing rq.1)))

/-- Per-row view of `clean_data` used to state the stable-filter
characterization: the normalized row, or `none` when the row is dropped. -/
def normRow (r : RawListing) : Option NormalizedListing :=
  match price_to_number r.price with
  | .ok (some q) => some (mkListing r q)
  | _ => none

/-- Pandas `isin(selected_locations)` on the Location column: a null location
matches nothing. -/
def locIsin (locs : List String) (loc : Option String) : Bool :=
  match loc with
  | none => false
  | some x => locs.any (fun y => y == x)

/-- The filtering block of `run_streamlit_app` (src/zameen-copy.py lines
232-242): with a non-empty location selection, keep the rows whose location is
selected and whose price lies in the inclusive range; with an empty selection,
filter by price alone. -/
def filterListings (ds : List NormalizedListing) (locs : List String) (lo hi : ℚ) :
    List NormalizedListing :=
  if locs.isEmpty then
    ds.filter (fun n => decide (lo ≤ n.price_numeric) && decide (n.price_numeric ≤ hi))
  else
    ds.filter (fun n =>
      locIsin locs n.location && decide (lo ≤ n.price_numeric) && decide (n.price_numeric ≤ hi))

/-- The identity raw mapping: a cleaned row re-fed as a raw record.  The
normalized columns carry no `Features` or `Last Updated` text. -/
def toRaw (n : NormalizedListing) : RawListing :=
  { location := n.location, price := n.price, features := none, lastUpdated := none }

/-- A cleaned row with the bedroom and bathroom counts reset to the default 0. -/
def zeroBB (n : NormalizedListing) : NormalizedListing :=
  { n with bedrooms := 0, bathrooms := 0 }

instance {ε α : Type} [DecidableEq ε] [DecidableEq α] : DecidableEq (Except ε α) := fun x y =>
  match x, y with
  | .error a, .error b =>
    if h : a = b then .isTrue (by rw [h]) else .isFalse (fun he => by cases he; exact h rfl)
  | .ok a, .ok b =>
    if h : a = b then .isTrue (by rw [h]) else .isFalse (fun he => by cases he; exact h rfl)
  | .error _, .ok _ => .isFalse (fun he => by cases he)
  | .ok _, .error _ => .isFalse (fun he => by cases he)

/-! ## Branch lemmas for `price_to_number` -/

theorem ptn_crore (s : String) (h : subStr "Crore".data (stripPKR s) = true) :
    price_to_number (some s) = applySuffix "Crore".data 10000000 (stripPKR s) := by
  simp [price_to_number, h]

theorem ptn_lakh (s : String) (h1 : subStr "Crore".data (stripPKR s) = false)
    (h2 : subStr "Lakh".data (stripPKR s) = true) :
    price_to_number (some s) = applySuffix "Lakh".data 100000 (stripPKR s) := by
  simp [price_to_number, h1, h2]

theorem ptn_plain (s : String) (h1 : subStr "Crore".data (stripPKR s) = false)
    (h2 : subStr "Lakh".data (stripPKR s) = false) :
    price_to_number (some s) = .ok (pyFloat (stripPKR s)) := by
  simp [price_to_number, h1, h2]

/-! ## Concrete evaluations of `price_to_number` -/

theorem ptn_ex_crore15 : price_to_number (some "PKR 1.5 Crore") = .ok (some 15000000) := by
  rw [ptn_crore _ (by decide)]
  rw [show (applySuffix "Crore".data 10000000 (stripPKR "PKR 1.5 Crore") : Except Unit (Option ℚ))
      = .ok (some (floatVal ⟨false, 1, 5, 1, false, 0⟩ * 10000000)) from by
    simp only [applySuffix,
      show floatParse (pyStrip (removeAll "Crore".data (stripPKR "PKR 1.5 Crore")))
        = some ⟨false, 1, 5, 1, false, 0⟩ from by decide]]
  norm_num [floatVal]

theorem ptn_ex_lakh50 : price_to_number (some "PKR 50 Lakh") = .ok (some 5000000) := by
  rw [ptn_lakh _ (by decide) (by decide)]
  rw [show (applySuffix "Lakh".data 100000 (stripPKR "PKR 50 Lakh") : Except Unit (Option ℚ))
      = .ok (some (floatVal ⟨false, 50, 0, 0, false, 0⟩ * 100000)) from by
    simp only [applySuffix,
      show floatParse (pyStrip (removeAll "Lakh".data (stripPKR "PKR 50 Lakh")))
        = some ⟨false, 50, 0, 0, false, 0⟩ from by decide]]
  norm_num [floatVal]

theorem ptn_ex_900000 : price_to_number (some "PKR 900000") = .ok (some 900000) := by
  rw [ptn_plain _ (by decide) (by decide)]
  rw [show pyFloat (stripPKR "PKR 900000") = some (floatVal ⟨false, 900000, 0, 0, false, 0⟩) from by
    simp only [pyFloat,
      show floatParse (stripPKR "PKR 900000") = some ⟨false, 900000, 0, 0, false, 0⟩ from by decide]
    rfl]
  norm_num [floatVal]

theorem ptn_ex_na : price_to_number (some "N/A") = .ok none := by
  rw [ptn_plain _ (by decide) (by decide)]
  simp only [pyFloat, show floatParse (stripPKR "N/A") = none from by decide]
  rfl

theorem ptn_ex_crore2 : price_to_number (some "PKR 2 Crore") = .ok (some 20000000) := by
  rw [ptn_crore _ (by decide)]
  rw [show (applySuffix "Crore".data 10000000 (stripPKR "PKR 2 Crore") : Except Unit (Option ℚ))
      = .ok (some (floatVal ⟨false, 2, 0, 0, false, 0⟩ * 10000000)) from by
    simp only [applySuffix,
      show floatParse (pyStrip (removeAll "Crore".data (stripPKR "PKR 2 Crore")))
        = some ⟨false, 2, 0, 0, false, 0⟩ from by decide]]
  norm_num [floatVal]

theorem ptn_ex_neg5 : price_to_number (some "-5") = .ok (some (-5)) := by
  rw [ptn_plain _ (by decide) (by decide)]
  rw [show pyFloat (stripPKR "-5") = some (floatVal ⟨true, 5, 0, 0, false, 0⟩) from by
    simp only [pyFloat,
      show floatParse (stripPKR "-5") = some ⟨true, 5, 0, 0, false, 0⟩ from by decide]
    rfl]
  norm_num [floatVal]

theorem ptn_ex_lower : price_to_number (some "PKR 1.5 crore") = .ok none := by
  rw [ptn_plain _ (by decide) (by decide)]
  simp only [pyFloat, show floatParse (stripPKR "PKR 1.5 crore") = none from by decide]
  rfl

/-- C3: `price_to_number` returns exactly 15,000,000 for `"PKR 1.5 Crore"`,
5,000,000 for `"PKR 50 Lakh"`, 900000 for `"PKR 900000"`, null for `"N/A"`,
and null for an absent input. -/
theorem price_to_number_examples :
    price_to_number (some "PKR 1.5 Crore") = .ok (some 15000000) ∧
    price_to_number (some "PKR 50 Lakh") = .ok (some 5000000) ∧
    price_to_number (some "PKR 900000") = .ok (some 900000) ∧
    price_to_number (some "N/A") = .ok none ∧
    price_to_number none = .ok none :=
  ⟨ptn_ex_crore15, ptn_ex_lakh50, ptn_ex_900000, ptn_ex_na, rfl⟩

/-- C1 counterexample: with a magnitude suffix present but a non-numeric
remainder, the uncaught `float` conversion error escapes `price_to_number`,
so parse failure is not always a null return. -/
theorem price_to_number_exception : price_to_number (some "PKR x Crore") = .error () := by
  rw [ptn_crore _ (by decide)]
  simp only [applySuffix,
    show floatParse (pyStrip (removeAll "Crore".data (stripPKR "PKR x Crore"))) = none from by
      decide]

/-- C1 (amended): an absent input returns null, and on the suffix-free path —
when the text after currency-prefix stripping contains neither `"Crore"` nor
`"Lakh"` — no exception escapes: the result is the plain parse, null on parse
failure.  (When a suffix is present and the remainder does not parse, a
`ValueError` escapes; see the counterexample.) -/
theorem price_to_number_no_suffix_total :
    price_to_number none = .ok none ∧
    ∀ s : String, subStr "Crore".data (stripPKR s) = false →
      subStr "Lakh".data (stripPKR s) = false →
      price_to_number (some s) = .ok (pyFloat (stripPKR s)) :=
  ⟨rfl, ptn_plain⟩

/-- C1 witness at concrete inputs. -/
theorem price_to_number_no_suffix_total_witness :
    price_to_number none = .ok none ∧
    price_to_number (some "N/A") = .ok (pyFloat (stripPKR "N/A")) :=
  ⟨price_to_number_no_suffix_total.1,
    price_to_number_no_suffix_total.2 "N/A" (by decide) (by decide)⟩

/-- C4: suffix matching is case-sensitive on the exact tokens and takes
priority over plain-number parsing, with `"Crore"` checked first: whenever
`"Crore"` occurs in the stripped text (in particular when both tokens occur)
the result is the ×10,000,000 Crore branch; when only `"Lakh"` occurs it is
the ×100,000 Lakh branch; and the lowercase `"crore"` is not a suffix match,
so `"PKR 1.5 crore"` falls through to the (failing) plain parse. -/
theorem price_to_number_suffix_priority :
    (∀ s : String, subStr "Crore".data (stripPKR s) = true →
      price_to_number (some s) = applySuffix "Crore".data 10000000 (stripPKR s)) ∧
    (∀ s : String, subStr "Crore".data (stripPKR s) = false →
      subStr "Lakh".data (stripPKR s) = true →
      price_to_number (some s) = applySuffix "Lakh".data 100000 (stripPKR s)) ∧
    price_to_number (some "PKR 1.5 crore") = .ok none :=
  ⟨ptn_crore, ptn_lakh, ptn_ex_lower⟩

/-- C4 witness at concrete inputs, one per suffix branch (the first contains
both tokens). -/
theorem price_to_number_suffix_priority_witness :
    price_to_number (some "PKR 1 Crore Lakh")
      = applySuffix "Crore".data 10000000 (stripPKR "PKR 1 Crore Lakh") ∧
    price_to_number (some "PKR 50 Lakh")
      = applySuffix "Lakh".data 100000 (stripPKR "PKR 50 Lakh") :=
  ⟨price_to_number_suffix_priority.1 "PKR 1 Crore Lakh" (by decide),
    price_to_number_suffix_priority.2.1 "PKR 50 Lakh" (by decide) (by decide)⟩

/-! ## Occurrence lemmas for the feature extractor -/

theorem subStr_of_isPref_dropWhile (lbl : List Char) (p : Char → Bool) :
    ∀ s : List Char, isPref lbl (s.dropWhile p) = true → subStr lbl s = true := by
  intro s
  induction s with
  | nil => intro h; cases lbl with
    | nil => rfl
    | cons a as => simp [List.dropWhile] at h; cases h
  | cons c cs ih =>
    intro h
    by_cases hp : p c
    · rw [List.dropWhile_cons_of_pos hp] at h
      have := ih h
      simp [subStr, this]
    · rw [List.dropWhile_cons_of_neg hp] at h
      simp [subStr, h]

theorem subStr_of_subStr_dropWhile (lbl : List Char) (p : Char → Bool) :
    ∀ s : List Char, subStr lbl (s.dropWhile p) = true → subStr lbl s = true := by
  intro s
  induction s with
  | nil => intro h; exact h
  | cons c cs ih =>
    intro h
    by_cases hp : p c
    · rw [List.dropWhile_cons_of_pos hp] at h
      have := ih h
      simp [subStr, this]
    · rw [List.dropWhile_cons_of_neg hp] at h
      exact h

theorem subStr_of_scanMatch (lbl : List Char) :
    ∀ (s : List Char) (n : ℕ), scanMatch lbl s = some n → subStr lbl s = true := by
  intro s
  induction s with
  | nil => intro n h; cases h
  | cons c cs ih =>
    intro n h
    rw [scanMatch] at h
    by_cases hc : (c.isDigit && isPref lbl (((c :: cs).dropWhile Char.isDigit).dropWhile pyWhite))
        = true
    · have hpref : isPref lbl (((c :: cs).dropWhile Char.isDigit).dropWhile pyWhite) = true :=
        (Bool.and_eq_true _ _ ▸ hc).2
      exact subStr_of_subStr_dropWhile lbl Char.isDigit (c :: cs)
        (subStr_of_isPref_dropWhile lbl pyWhite ((c :: cs).dropWhile Char.isDigit) hpref)
    · rw [if_neg hc] at h
      have := ih n h
      simp [subStr, this]

/-- C5: `extractCount` is a single first-match search for
`<integer><whitespace?><label>`: it returns null when the text is absent or
the label does not occur in the text, and on `"3 Bed 2 Bath"` it returns the
first matched integer 3 for `"Bed"` and 2 for `"Bath"`, and null on
`"Studio"` for `"Bed"`. -/
theorem extractCount_spec :
    (∀ label : String, extractCount none label = none) ∧
    (∀ s label : String, subStr label.data s.data = false →
      extractCount (some s) label = none) ∧
    extractCount (some "3 Bed 2 Bath") "Bed" = some 3 ∧
    extractCount (some "3 Bed 2 Bath") "Bath" = some 2 ∧
    extractCount (some "Studio") "Bed" = none := by
  refine ⟨fun _ => rfl, fun s label h => ?_, by decide, by decide, by decide⟩
  cases hm : scanMatch label.data s.data with
  | none => simp [extractCount, hm]
  | some n => rw [subStr_of_scanMatch label.data s.data n hm] at h; cases h

/-- C5 witness at concrete inputs. -/
theorem extractCount_spec_witness :
    extractCount none "Bed" = none ∧ extractCount (some "Studio") "Bed" = none :=
  ⟨extractCount_spec.1 "Bed", extractCount_spec.2.1 "Studio" "Bed" (by decide)⟩

/-- C10: the label need not occur as a standalone word — the first-match
pattern accepts it as the beginning of a longer word, so `"3 Bedrooms"` with
label `"Bed"` yields 3 rather than null. -/
theorem extractCount_label_in_longer_word : extractCount (some "3 Bedrooms") "Bed" = some 3 := by
  decide

/-! ## Characterization of `clean_data` -/

theorem cleanRows_ok_filterMap (l : List RawListing) (rows : List (RawListing × Option ℚ))
    (h : cleanRows l = .ok rows) :
    rows.filterMap (fun rq => rq.2.map (mkListing rq.1)) = l.filterMap normRow := by
  induction l generalizing rows with
  | nil =>
    rw [cleanRows] at h
    cases h
    rfl
  | cons r rest ih =>
    rw [cleanRows] at h
    cases hp : price_to_number r.price with
    | error e => rw [hp] at h; cases h
    | ok pn =>
      rw [hp] at h
      cases hc : cleanRows rest with
      | error e => rw [hc] at h; cases h
      | ok tl =>
        rw [hc] at h
        cases h
        cases pn with
        | none => simp [List.filterMap_cons, normRow, hp, ih tl hc]
        | some q => simp [List.filterMap_cons, normRow, hp, ih tl hc]

theorem clean_data_ok_filterMap (l : List RawListing) (out : List NormalizedListing)
    (h : clean_data l = .ok out) : out = l.filterMap normRow := by
  rw [clean_data] at h
  cases hc : cleanRows l with
  | error e => rw [hc] at h; cases h
  | ok rows =>
    rw [hc] at h
    cases h
    exact cleanRows_ok_filterMap l rows hc

theorem normRow_some (r : RawListing) (n : NormalizedListing) (h : normRow r = some n) :
    price_to_number n.price = .ok (some n.price_numeric) ∧
      0 ≤ n.bedrooms ∧ 0 ≤ n.bathrooms := by
  rw [normRow] at h
  cases hp : price_to_number r.price with
  | error e => rw [hp] at h; cases h
  | ok pn =>
    cases pn with
    | none => rw [hp] at h; cases h
    | some q =>
      rw [hp] at h
      cases h
      refine ⟨?_, ?_, ?_⟩
      · simpa [mkListing] using hp
      · simp [mkListing]
      · simp [mkListing]

theorem clean_data_mem (l : List RawListing) (out : List NormalizedListing)
    (n : NormalizedListing) (h : clean_data l = .ok out) (hn : n ∈ out) :
    price_to_number n.price = .ok (some n.price_numeric) ∧
      0 ≤ n.bedrooms ∧ 0 ≤ n.bathrooms := by
  rw [clean_data_ok_filterMap l out h] at hn
  obtain ⟨r, _, hr⟩ := List.mem_filterMap.mp hn
  exact normRow_some r n hr

/-! ## Concrete evaluations of `clean_data` -/

theorem clean_ex_dha :
    clean_data [⟨some "DHA", some "PKR 2 Crore", some "4 Bed 3 Bath", none⟩]
      = .ok [⟨some "DHA", some "PKR 2 Crore", 20000000, 4, 3⟩] := by
  simp only [clean_data, cleanRows, ptn_ex_crore2, List.filterMap, Option.map, Except.map]
  simp [mkListing, show extract_bed (some "4 Bed 3 Bath") = some 4 from by decide,
    show extract_bath (some "4 Bed 3 Bath") = some 3 from by decide]

theorem clean_ex_dha_reclean :
    clean_data [⟨some "DHA", some "PKR 2 Crore", none, none⟩]
      = .ok [⟨some "DHA", some "PKR 2 Crore", 20000000, 0, 0⟩] := by
  simp only [clean_data, cleanRows, ptn_ex_crore2, List.filterMap, Option.map, Except.map]
  simp [mkListing, show extract_bed none = none from rfl, show extract_bath none = none from rfl]

theorem clean_ex_neg5 :
    clean_data [⟨none, some "-5", none, none⟩] = .ok [⟨none, some "-5", -5, 0, 0⟩] := by
  simp only [clean_data, cleanRows, ptn_ex_neg5, List.filterMap, Option.map, Except.map]
  simp [mkListing, show extract_bed none = none from rfl, show extract_bath none = none from rfl]

/-- C2 counterexample: the raw price text `"-5"` is parsed and retained, so
`clean_data` can output a record whose `PriceNumeric` is negative, refuting
the non-negativity part of the claim. -/
theorem clean_data_negative_output :
    clean_data [⟨none, some "-5", none, none⟩] = .ok [⟨none, some "-5", -5, 0, 0⟩] ∧
      (NormalizedListing.mk none (some "-5") (-5) 0 0).price_numeric < 0 :=
  ⟨clean_ex_neg5, by norm_num⟩

/-- C2 (amended): every record of a successful `clean_data` output has a
defined `PriceNumeric` — it is exactly the parse of the record's price text —
and non-negative integer `Bedrooms` and `Bathrooms` defaulting to 0; but
`PriceNumeric` itself need not be non-negative (see the counterexample). -/
theorem clean_data_output_fields :
    ∀ (l : List RawListing) (out : List NormalizedListing), clean_data l = .ok out →
      ∀ n ∈ out, price_to_number n.price = .ok (some n.price_numeric) ∧
        0 ≤ n.bedrooms ∧ 0 ≤ n.bathrooms :=
  fun l out h n hn => clean_data_mem l out n h hn

/-- C2 witness at a concrete input. -/
theorem clean_data_output_fields_witness :
    price_to_number (NormalizedListing.mk (some "DHA") (some "PKR 2 Crore") 20000000 4 3).price
        = .ok (some (NormalizedListing.mk (some "DHA") (some "PKR 2 Crore") 20000000 4 3).price_numeric) ∧
      0 ≤ (NormalizedListing.mk (some "DHA") (some "PKR 2 Crore") 20000000 4 3).bedrooms ∧
      0 ≤ (NormalizedListing.mk (some "DHA") (some "PKR 2 Crore") 20000000 4 3).bathrooms :=
  clean_data_output_fields [⟨some "DHA", some "PKR 2 Crore", some "4 Bed 3 Bath", none⟩]
    [⟨some "DHA", some "PKR 2 Crore", 20000000, 4, 3⟩] clean_ex_dha
    ⟨some "DHA", some "PKR 2 Crore", 20000000, 4, 3⟩ (List.mem_singleton.mpr rfl)

/-- C6: a successful `clean_data` run is the stable filter-map of the input —
it keeps, in input order, exactly the rows whose price parses (each mapped to
its normalized row), and no record with unparseable price text appears in the
output. -/
theorem clean_data_stable_filter :
    ∀ (l : List RawListing) (out : List NormalizedListing), clean_data l = .ok out →
      out = l.filterMap normRow ∧ ∀ n ∈ out, price_to_number n.price ≠ .ok none := by
  intro l out h
  refine ⟨clean_data_ok_filterMap l out h, fun n hn => ?_⟩
  rw [(clean_data_mem l out n h hn).1]
  simp

/-- C6 witness at a concrete input. -/
theorem clean_data_stable_filter_witness :
    [(⟨some "DHA", some "PKR 2 Crore", 20000000, 4, 3⟩ : NormalizedListing)]
        = [(⟨some "DHA", some "PKR 2 Crore", some "4 Bed 3 Bath", none⟩ : RawListing)].filterMap
            normRow ∧
      ∀ n ∈ [(⟨some "DHA", some "PKR 2 Crore", 20000000, 4, 3⟩ : NormalizedListing)],
        price_to_number n.price ≠ .ok none :=
  clean_data_stable_filter [⟨some "DHA", some "PKR 2 Crore", some "4 Bed 3 Bath", none⟩]
    [⟨some "DHA", some "PKR 2 Crore", 20000000, 4, 3⟩] clean_ex_dha

/-! ## Round-trip behaviour of `clean_data` -/

theorem mkListing_toRaw (n : NormalizedListing) : mkListing (toRaw n) n.price_numeric = zeroBB n := by
  simp [mkListing, toRaw, zeroBB, extract_bed, extract_bath, extractCount]

theorem cleanRows_toRaw (out : List NormalizedListing)
    (h : ∀ n ∈ out, price_to_number n.price = .ok (some n.price_numeric)) :
    cleanRows (out.map toRaw) = .ok (out.map fun n => (toRaw n, some n.price_numeric)) := by
  induction out with
  | nil => rfl
  | cons n rest ih =>
    have hn : price_to_number (toRaw n).price = .ok (some n.price_numeric) :=
      h n (List.mem_cons_self n rest)
    have hr : cleanRows (rest.map toRaw) = .ok (rest.map fun m => (toRaw m, some m.price_numeric)) :=
      ih fun m hm => h m (List.mem_cons_of_mem n hm)
    rw [List.map_cons, cleanRows, hn, hr]
    rfl

theorem filterMap_toRaw : ∀ out : List NormalizedListing,
    (out.map fun n => (toRaw n, some n.price_numeric)).filterMap
        (fun rq => rq.2.map (mkListing rq.1)) = out.map zeroBB
  | [] => rfl
  | n :: rest => by
    have ih := filterMap_toRaw rest
    show mkListing (toRaw n) n.price_numeric ::
        ((rest.map fun m => (toRaw m, some m.price_numeric)).filterMap
          (fun rq => rq.2.map (mkListing rq.1)))
      = zeroBB n :: rest.map zeroBB
    rw [mkListing_toRaw, ih]

/-- C9 (amended): re-feeding a successful `clean_data` output through the
identity raw mapping and cleaning again retains every record in order with
the same Location, Price and PriceNumeric, but resets Bedrooms and Bathrooms
to the default 0, because the Features text is not part of the normalized
record.  Cleaning twice therefore does not reproduce the records exactly
(see the counterexample). -/
theorem clean_data_round_trip :
    ∀ (l : List RawListing) (out : List NormalizedListing), clean_data l = .ok out →
      clean_data (out.map toRaw) = .ok (out.map zeroBB) := by
  intro l out h
  have hfields := fun n hn => (clean_data_mem l out n h hn).1
  rw [clean_data, cleanRows_toRaw out hfields, Except.map, filterMap_toRaw out]

/-- C9 witness at a concrete input. -/
theorem clean_data_round_trip_witness :
    clean_data ([(⟨some "DHA", some "PKR 2 Crore", 20000000, 4, 3⟩ : NormalizedListing)].map toRaw)
      = .ok ([(⟨some "DHA", some "PKR 2 Crore", 20000000, 4, 3⟩ : NormalizedListing)].map zeroBB) :=
  clean_data_round_trip [⟨some "DHA", some "PKR 2 Crore", some "4 Bed 3 Bath", none⟩]
    [⟨some "DHA", some "PKR 2 Crore", 20000000, 4, 3⟩] clean_ex_dha

/-- C9 counterexample: cleaning the DHA example once yields Bedrooms 4 and
Bathrooms 3; re-feeding that output through the identity raw mapping and
cleaning again yields Bedrooms 0 and Bathrooms 0, a different record. -/
theorem clean_data_not_idempotent :
    clean_data [⟨some "DHA", some "PKR 2 Crore", some "4 Bed 3 Bath", none⟩]
        = .ok [⟨some "DHA", some "PKR 2 Crore", 20000000, 4, 3⟩] ∧
      clean_data [toRaw ⟨some "DHA", some "PKR 2 Crore", 20000000, 4, 3⟩]
        = .ok [⟨some "DHA", some "PKR 2 Crore", 20000000, 0, 0⟩] ∧
      (NormalizedListing.mk (some "DHA") (some "PKR 2 Crore") 20000000 0 0)
        ≠ ⟨some "DHA", some "PKR 2 Crore", 20000000, 4, 3⟩ := by
  refine ⟨clean_ex_dha, ?_, ?_⟩
  · rw [show toRaw ⟨some "DHA", some "PKR 2 Crore", 20000000, 4, 3⟩
        = ⟨some "DHA", some "PKR 2 Crore", none, none⟩ from rfl]
    exact clean_ex_dha_reclean
  · intro h
    have : (0 : ℤ) = 4 := congrArg NormalizedListing.bedrooms h
    cases this

/-! ## The filter engine -/

theorem filter_all_true {α : Type} (p : α → Bool) :
    ∀ l : List α, (∀ a ∈ l, p a = true) → l.filter p = l := by
  intro l
  induction l with
  | nil => intro _; rfl
  | cons a as ih =>
    intro h
    rw [List.filter_cons, if_pos (h a (List.mem_cons_self a as)),
      ih fun b hb => h b (List.mem_cons_of_mem a hb)]

theorem filter_all_false {α : Type} (p : α → Bool) :
    ∀ l : List α, (∀ a ∈ l, p a = false) → l.filter p = [] := by
  intro l
  induction l with
  | nil => intro _; rfl
  | cons a as ih =>
    intro h
    rw [List.filter_cons, if_neg (by simp [h a (List.mem_cons_self a as)]),
      ih fun b hb => h b (List.mem_cons_of_mem a hb)]

theorem locIsin_iff (locs : List String) (loc : Option String) :
    locIsin locs loc = true ↔ ∃ x ∈ locs, loc = some x := by
  cases loc with
  | none => simp [locIsin]
  | some y =>
    simp only [locIsin, List.any_eq_true, beq_iff_eq, Option.some.injEq]
    constructor
    · rintro ⟨x, hx, h⟩
      exact ⟨x, hx, h.symm⟩
    · rintro ⟨x, hx, h⟩
      exact ⟨x, hx, h.symm⟩

/-- C7: a record is in the filter result iff it is in the dataset, its
location is unrestricted (empty selection) or selected, and its price lies
within the inclusive bounds; and with an empty location selection and bounds
covering every price (the 0-to-∞ setting), the whole dataset is returned
with order preserved. -/
theorem filterListings_inclusion :
    (∀ (ds : List NormalizedListing) (locs : List String) (lo hi : ℚ) (n : NormalizedListing),
      n ∈ filterListings ds locs lo hi ↔
        n ∈ ds ∧ (locs = [] ∨ ∃ x ∈ locs, n.location = some x) ∧
          lo ≤ n.price_numeric ∧ n.price_numeric ≤ hi) ∧
    (∀ (ds : List NormalizedListing) (hi : ℚ),
      (∀ n ∈ ds, 0 ≤ n.price_numeric ∧ n.price_numeric ≤ hi) →
        filterListings ds [] 0 hi = ds) := by
  constructor
  · intro ds locs lo hi n
    rw [filterListings]
    by_cases hl : locs.isEmpty
    · have he : locs = [] := by simpa [List.isEmpty_iff] using hl
      subst he
      rw [if_pos (show ([] : List String).isEmpty = true from rfl)]
      simp [List.mem_filter, and_assoc]
    · have hne : locs ≠ [] := by simpa [List.isEmpty_iff] using hl
      rw [if_neg hl]
      simp only [List.mem_filter, Bool.and_eq_true, decide_eq_true_eq, locIsin_iff, hne,
        false_or, and_assoc]
  · intro ds hi h
    rw [filterListings, if_pos (show ([] : List String).isEmpty = true from rfl)]
    apply filter_all_true
    intro a ha
    have := h a ha
    simp [this.1, this.2]

/-- C7 witness at a concrete dataset and criteria. -/
theorem filterListings_inclusion_witness :
    ((⟨some "X", some "5", 5, 0, 0⟩ : NormalizedListing) ∈
        filterListings [⟨some "X", some "5", 5, 0, 0⟩] ["X"] 1 9 ↔
      (⟨some "X", some "5", 5, 0, 0⟩ : NormalizedListing) ∈
          [(⟨some "X", some "5", 5, 0, 0⟩ : NormalizedListing)] ∧
        ((["X"] : List String) = [] ∨ ∃ x ∈ ["X"],
          (⟨some "X", some "5", 5, 0, 0⟩ : NormalizedListing).location = some x) ∧
        1 ≤ (⟨some "X", some "5", 5, 0, 0⟩ : NormalizedListing).price_numeric ∧
        (⟨some "X", some "5", 5, 0, 0⟩ : NormalizedListing).price_numeric ≤ 9) ∧
    filterListings [⟨some "X", some "5", 5, 0, 0⟩] [] 0 9 = [⟨some "X", some "5", 5, 0, 0⟩] :=
  ⟨filterListings_inclusion.1 [⟨some "X", some "5", 5, 0, 0⟩] ["X"] 1 9 _,
    filterListings_inclusion.2 [⟨some "X", some "5", 5, 0, 0⟩] 9 (fun n hn => by
      rw [List.mem_singleton.mp hn]
      exact ⟨by norm_num, by norm_num⟩)⟩

/-- C8: malformed criteria are not rejected — an inverted price range
(priceMin > priceMax) or a non-empty location selection disjoint from the
dataset makes the filter return the empty list, a valid output, rather than
fail. -/
theorem filterListings_malformed_empty :
    (∀ (ds : List NormalizedListing) (locs : List String) (lo hi : ℚ), hi < lo →
      filterListings ds locs lo hi = []) ∧
    (∀ (ds : List NormalizedListing) (locs : List String) (lo hi : ℚ), locs ≠ [] →
      (∀ n ∈ ds, ∀ x ∈ locs, n.location ≠ some x) →
      filterListings ds locs lo hi = []) := by
  constructor
  · intro ds locs lo hi hlt
    rw [filterListings]
    by_cases hl : locs.isEmpty
    · rw [if_pos hl]
      apply filter_all_false
      intro a _
      by_cases h1 : lo ≤ a.price_numeric
      · have h2 : ¬a.price_numeric ≤ hi := fun h2 => absurd (h1.trans h2) (not_le.mpr hlt)
        simp [h2]
      · simp [h1]
    · rw [if_neg hl]
      apply filter_all_false
      intro a _
      by_cases h1 : lo ≤ a.price_numeric
      · have h2 : ¬a.price_numeric ≤ hi := fun h2 => absurd (h1.trans h2) (not_le.mpr hlt)
        simp [h2]
      · simp [h1]
  · intro ds locs lo hi hne hout
    rw [filterListings, if_neg (by simpa [List.isEmpty_iff] using hne)]
    apply filter_all_false
    intro a ha
    have hli : locIsin locs a.location = false := by
      rw [← Bool.not_eq_true, locIsin_iff]
      rintro ⟨x, hx, hax⟩
      exact hout a ha x hx hax
    simp [hli]

/-- C8 witness at a concrete dataset and criteria. -/
theorem filterListings_malformed_empty_witness :
    filterListings [⟨some "X", some "5", 5, 0, 0⟩] [] 1 0 = [] ∧
    filterListings [⟨some "X", some "5", 5, 0, 0⟩] ["Y"] 0 9 = [] :=
  ⟨filterListings_malformed_empty.1 [⟨some "X", some "5", 5, 0, 0⟩] [] 1 0 (by norm_num),
    filterListings_malformed_empty.2 [⟨some "X", some "5", 5, 0, 0⟩] ["Y"] 0 9
      (by simp) (fun n hn x hx => by
        rw [List.mem_singleton.mp hn, List.mem_singleton.mp hx]
        simp)⟩

end Zameen
